import Mathlib

set_option maxHeartbeats 1000000

/- Shallow embedding of src/net_queue.py: the NetMessage framer and
   request/result handoff object, the TcpServer lifecycle, the guard of the
   Connection run loop, one iteration of the Network accept loop, and the
   Network teardown drain.  Python strings are modelled as `List Char`
   and `datetime.datetime` is abstracted to `Nat`. -/

abbrev DateTime := Nat

/-- Python `str.replace("\r", "")`: remove every carriage return. -/
def stripCR (l : List Char) : List Char := l.filter (fun c => c != '\r')

/-- Python `str.find(pat)`: index of the first occurrence of `pat`
    (`none` plays the role of Python's -1). -/
def findSub (pat : List Char) : List Char → Option Nat
  | [] => if pat.isPrefixOf ([] : List Char) then some 0 else none
  | c :: rest =>
      if pat.isPrefixOf (c :: rest) then some 0
      else (findSub pat rest).map (fun i => i + 1)

/-- Python `str.rfind(pat)`: index of the last occurrence of `pat`
    (`none` plays the role of Python's -1). -/
def rfindSub (pat : List Char) : List Char → Option Nat
  | [] => if pat.isPrefixOf ([] : List Char) then some 0 else none
  | c :: rest =>
      match rfindSub pat rest with
      | some i => some (i + 1)
      | none => if pat.isPrefixOf (c :: rest) then some 0 else none

def isHexDigit (c : Char) : Bool :=
  decide (('0' ≤ c ∧ c ≤ '9') ∨ ('a' ≤ c ∧ c ≤ 'f') ∨ ('A' ≤ c ∧ c ≤ 'F'))

def hexDigitVal (c : Char) : Nat :=
  if '0' ≤ c ∧ c ≤ '9' then c.toNat - '0'.toNat
  else if 'a' ≤ c ∧ c ≤ 'f' then c.toNat - 'a'.toNat + 10
  else c.toNat - 'A'.toNat + 10

/-- `urllib.parse.unquote`, modelled for single-byte percent escapes: each
    `%xx` with two hex digits becomes the character with that code; anything
    else (including invalid escapes) is passed through unchanged, as Python
    does for invalid escapes. -/
def unquote : List Char → List Char
  | [] => []
  | '%' :: a :: b :: rest =>
      if isHexDigit a && isHexDigit b then
        Char.ofNat (16 * hexDigitVal a + hexDigitVal b) :: unquote rest
      else '%' :: unquote (a :: b :: rest)
  | c :: rest => c :: unquote rest

/-- The `" HTTP/"` token that `NetMessage.add` searches with `rfind`. -/
def httpTok : List Char := " HTTP/".data

structure NetMessage where
  is_http : Bool
  listening : Bool
  listen_since : Option DateTime
  disconnect : Bool
  request : List Char
  result : Option (List Char)
deriving DecidableEq

/-- `NetMessage.__init__(is_http)`. -/
def freshMsg (is_http : Bool) : NetMessage :=
  { is_http := is_http, listening := false, listen_since := none,
    disconnect := false, request := [], result := none }

/-- `NetMessage.is_listening()`: returns the PAIR
    `(self._listening, self._listen_since)`, not a boolean. -/
def NetMessage.is_listening (st : NetMessage) : Bool × Option DateTime :=
  (st.listening, st.listen_since)

/-- `NetMessage.is_disconnect()`. -/
def NetMessage.is_disconnect (st : NetMessage) : Bool := st.disconnect

/-- `NetMessage.add(request)`: append the fragment with carriage returns
    stripped, search for the terminator (`"\n\n"` in HTTP mode, `"\n"`
    otherwise); in HTTP mode reduce to the first line, drop the trailing
    `" HTTP/x.x"` (found with `rfind`) and percent-decode; in plain mode drop
    the newline only when it is the final character.  Without a terminator the
    call reports completion exactly when the accumulator is empty and the
    message is in listening mode. -/
def NetMessage.add (st : NetMessage) (request : List Char) : NetMessage × Bool :=
  let req := st.request ++ stripCR request
  match findSub (if st.is_http then ['\n', '\n'] else ['\n']) req with
  | some pos =>
      if st.is_http then
        let line :=
          match findSub ['\n'] req with
          | some p => req.take p
          | none => req.take (req.length - 1)
            -- Python slice req[:-1] when find returns -1; unreachable here
        let line2 :=
          match rfindSub httpTok line with
          | some p => line.take p
          | none => line
        ({ st with request := unquote line2 }, true)
      else if pos + 1 = req.length then
        ({ st with request := req.take pos }, true)
      else
        ({ st with request := req }, true)
  | none => ({ st with request := req }, req.isEmpty && st.listening)

/-- `NetMessage.get_result()`.  `waitTrans` models what the other threads do
    to the shared state while this thread is blocked in `condition.wait()`; a
    spurious wake with no intervening `set_result` is `waitTrans = id`.  The
    Python body checks `if self._result is None` once (not in a loop) and then
    unconditionally clears the accumulator and the slot and returns the slot. -/
def NetMessage.get_result (st : NetMessage) (waitTrans : NetMessage → NetMessage) :
    NetMessage × Option (List Char) :=
  let st1 := match st.result with
             | none => waitTrans st
             | some _ => st
  ({ st1 with request := [], result := none }, st1.result)

/-- `NetMessage.set_result(result, listening, listen_until, disconnect)`:
    sets all four fields under the condition lock and issues one
    `condition.notify()`; the second component counts the notify calls. -/
def NetMessage.set_result (st : NetMessage) (result : List Char) (listening : Bool)
    (listen_until : Option DateTime) (disconnect : Bool) : NetMessage × Nat :=
  ({ st with result := some result, listening := listening,
             listen_since := listen_until, disconnect := disconnect }, 1)

/-- Python truthiness of a tuple: `bool((x, y))` is `len((x, y)) != 0`, so a
    2-tuple is truthy regardless of its components — in particular
    `(False, None)` is truthy. -/
def pyTruthyPair {α β : Type} (_ : α × β) : Bool := true

/-- The step-4 guard of `Connection.run`:
    `if new_data or message.is_listening():` — the right operand is the tuple
    returned by `is_listening`, evaluated for Python truthiness. -/
def connDataGuard (new_data : Bool) (msg : NetMessage) : Bool :=
  new_data || pyTruthyPair msg.is_listening

structure TcpServer where
  port : Int
  addr : List Char
  backlog : Int
  listening : Bool
  sock : Option Nat
deriving DecidableEq

/-- `TcpServer.__init__(port, addr, backlog=5)`. -/
def TcpServer.make (port : Int) (addr : List Char) (backlog : Int) : TcpServer :=
  { port := port, addr := addr, backlog := if backlog ≥ 0 then backlog else 0,
    listening := false, sock := none }

/-- Outcome of the OS-level socket/bind/listen sequence tried by
    `TcpServer.start` (`fd` abstracts the created socket). -/
inductive BindOutcome where
  | ok (fd : Nat)
  | fail (err : List Char)
deriving DecidableEq

/-- `TcpServer.start()`: early return when already listening; otherwise create
    the socket, bind and listen, setting `_listening = True`; on `OSError` the
    socket is closed and dropped and the error is re-raised (`Except.error`). -/
def TcpServer.start (s : TcpServer) (outcome : BindOutcome) : Except (List Char) TcpServer :=
  if s.listening then Except.ok s
  else
    match outcome with
    | BindOutcome.ok fd => Except.ok { s with sock := some fd, listening := true }
    | BindOutcome.fail e => Except.error e

structure Network where
  tcp_server : TcpServer
  http_server : Option TcpServer
  listening : Bool

/-- `Network.__init__(local, port, http_port, net_queue)`: start the plain
    server (address loopback when local, raising on failure), set
    `_listening = True`, then start the HTTP server iff `http_port > 0`
    (again raising on failure, with no handler in between). -/
def Network.init (isLocal : Bool) (port http_port : Int)
    (tcpOutcome httpOutcome : BindOutcome) : Except (List Char) Network :=
  match (TcpServer.make port (if isLocal then "127.0.0.1".data else []) 5).start tcpOutcome with
  | Except.error e => Except.error e
  | Except.ok tcp =>
      if http_port > 0 then
        match (TcpServer.make http_port [] 5).start httpOutcome with
        | Except.error e => Except.error e
        | Except.ok http =>
            Except.ok { tcp_server := tcp, http_server := some http, listening := true }
      else Except.ok { tcp_server := tcp, http_server := none, listening := true }

inductive ServerId where
  | tcp
  | http
deriving DecidableEq

inductive RunAction where
  | cleanup
  | shutdown
  | accept (source : ServerId) (tagHttp : Bool)
  | idle
deriving DecidableEq

/-- One iteration of the `Network.run` select loop, given which handles the
    select reported readable.  Mirrors lines 497-520 of the source: on a new
    connection the socket is obtained from `self._tcp_server.new_socket()`
    (the plain listener) in both branches, while `is_http` reflects which
    listener was readable. -/
def networkRunStep (hasHttp notifyReadable tcpReadable httpReadable : Bool) : RunAction :=
  if !notifyReadable && !tcpReadable && !httpReadable then RunAction.cleanup
  else if notifyReadable then RunAction.shutdown
  else
    let newConnHttp : Bool × Bool :=
      if tcpReadable then (true, false)
      else if hasHttp && httpReadable then (true, true)
      else (false, false)
    if newConnHttp.1 then RunAction.accept ServerId.tcp newConnHttp.2
    else RunAction.idle

/-- The sentinel error text posted while draining the queue in
    `Network.__del__`. -/
def errShutdown : List Char := "ERR: shutdown".data

/-- Observable actions of the `Network.__del__` teardown, in program order. -/
inductive TAction where
  | notifySelf
  | drain (m : NetMessage)
  | stopConn (cid : Nat)
  | joinConn (cid : Nat)
  | joinSelf
deriving DecidableEq

/-- The `get_nowait`/`set_result` drain loop of `Network.__del__`: every
    message still in the queue receives `("ERR: shutdown", False, None, True)`.
    Returns the updated messages and the drain actions in order. -/
def drainLoop : List NetMessage → List NetMessage × List TAction
  | [] => ([], [])
  | m :: rest =>
      let m2 := (m.set_result errShutdown false none true).1
      (m2 :: (drainLoop rest).1, TAction.drain m2 :: (drainLoop rest).2)

/-- The `while len(self._connections) > 0: pop(); stop(); join()` loop of
    `Network.__del__` (pops from the end of the registry). -/
def joinLoopRev : List Nat → List TAction
  | [] => []
  | c :: rest => TAction.stopConn c :: TAction.joinConn c :: joinLoopRev rest

/-- `Network.__del__`: notify own wake channel (`self.stop()`), drain the
    dispatch queue, then stop and join every registered connection, finally
    join the own thread.  `conns` is the registry of connection ids. -/
def networkDel (q : List NetMessage) (conns : List Nat) : List NetMessage × List TAction :=
  ((drainLoop q).1,
   TAction.notifySelf ::
     ((drainLoop q).2 ++ (joinLoopRev conns.reverse ++ [TAction.joinSelf])))

def isConnAct : TAction → Bool
  | TAction.stopConn _ => true
  | TAction.joinConn _ => true
  | _ => false

def isDrainAct : TAction → Bool
  | TAction.drain _ => true
  | _ => false

/-- `pat` occurs in `s` at index `i` (proof device for `findSub`/`rfindSub`). -/
def occursAt (pat s : List Char) (i : Nat) : Bool := pat.isPrefixOf (s.drop i)

/-- A server already in listening state (used by the idempotence witness). -/
def listeningServer : TcpServer := { TcpServer.make 1 [] 5 with listening := true }

/-- The state produced by a first successful `start` (used by the idempotence
    witness). -/
def startedServer : TcpServer := { TcpServer.make 2 [] 5 with sock := some 3, listening := true }

/-- The message produced by draining a fresh message (used by the
    shutdown-drain witness). -/
def drainedMsg0 : NetMessage := ((freshMsg false).set_result errShutdown false none true).1

theorem stripCR_append (a b : List Char) : stripCR (a ++ b) = stripCR a ++ stripCR b := by
  simp [stripCR]

theorem stripCR_of_not_mem {a : List Char} (h : ('\r') ∉ a) : stripCR a = a := by
  apply List.filter_eq_self.mpr
  intro c hc
  have : c ≠ '\r' := fun hcr => h (hcr ▸ hc)
  simpa using this

theorem not_mem_stripCR {c : Char} {a : List Char} (h : c ∉ a) : c ∉ stripCR a :=
  fun hmem => h (List.mem_of_mem_filter hmem)

theorem findSub_single_eq (A : List Char) (c : Char) (rest : List Char) (h : c ∉ A) :
    findSub [c] (A ++ c :: rest) = some A.length := by
  induction A with
  | nil => simp [findSub, List.isPrefixOf]
  | cons a A ih =>
      have hca : ¬ (c == a) = true := by
        simp only [beq_iff_eq]
        intro hc
        exact h (hc ▸ List.mem_cons_self a A)
      have ih2 := ih (fun hm => h (List.mem_cons_of_mem a hm))
      simp [findSub, List.isPrefixOf, hca, ih2]

theorem findSub_isSome_of_occurs (pat : List Char) :
    ∀ (s : List Char) (i : Nat), occursAt pat s i = true → (findSub pat s).isSome = true := by
  intro s
  induction s with
  | nil =>
      intro i hi
      simp only [occursAt, List.drop_nil] at hi
      simp [findSub, hi]
  | cons c rest ih =>
      intro i hi
      by_cases hpre : pat.isPrefixOf (c :: rest) = true
      · simp [findSub, hpre]
      · match i with
        | 0 =>
            simp only [occursAt, List.drop] at hi
            exact absurd hi hpre
        | i + 1 =>
            have : occursAt pat rest i = true := by
              simpa only [occursAt, List.drop_succ_cons] using hi
            have := ih i this
            simp [findSub, hpre, this]

theorem rfindSub_occurs (pat : List Char) :
    ∀ (s : List Char) (i : Nat), rfindSub pat s = some i → occursAt pat s i = true := by
  intro s
  induction s with
  | nil =>
      intro i hi
      simp only [rfindSub] at hi
      by_cases hpre : pat.isPrefixOf ([] : List Char) = true
      · rw [if_pos hpre] at hi
        cases hi
        simpa [occursAt] using hpre
      · rw [if_neg hpre] at hi
        cases hi
  | cons c rest ih =>
      intro i hi
      simp only [rfindSub] at hi
      cases hrec : rfindSub pat rest with
      | some j =>
          rw [hrec] at hi
          cases hi
          have := ih j hrec
          simpa only [occursAt, List.drop_succ_cons] using this
      | none =>
          rw [hrec] at hi
          by_cases hpre : pat.isPrefixOf (c :: rest) = true
          · rw [if_pos hpre] at hi
            cases hi
            simpa [occursAt] using hpre
          · rw [if_neg hpre] at hi
            cases hi

theorem rfindSub_ge (pat : List Char) :
    ∀ (s : List Char) (j : Nat), j ≤ s.length → occursAt pat s j = true →
      ∃ i, rfindSub pat s = some i ∧ j ≤ i := by
  intro s
  induction s with
  | nil =>
      intro j hj hocc
      have hj0 : j = 0 := Nat.le_zero.mp hj
      subst hj0
      simp only [occursAt, List.drop_nil] at hocc
      exact ⟨0, by simp [rfindSub, hocc], Nat.le_refl 0⟩
  | cons c rest ih =>
      intro j hj hocc
      match j with
      | 0 =>
          cases hrec : rfindSub pat rest with
          | some k => exact ⟨k + 1, by simp [rfindSub, hrec], Nat.zero_le _⟩
          | none =>
              have hpre : pat.isPrefixOf (c :: rest) = true := by
                simpa [occursAt] using hocc
              exact ⟨0, by simp [rfindSub, hrec, hpre], Nat.le_refl 0⟩
      | j + 1 =>
          have hlen : j ≤ rest.length := Nat.le_of_succ_le_succ hj
          have hocc2 : occursAt pat rest j = true := by
            simpa only [occursAt, List.drop_succ_cons] using hocc
          obtain ⟨i, hi, hji⟩ := ih j hlen hocc2
          exact ⟨i + 1, by simp [rfindSub, hi], Nat.succ_le_succ hji⟩

theorem httpTok_not_occurs_in_suffix (k : Nat) (hk : 1 ≤ k) :
    httpTok.isPrefixOf ((" HTTP/1.1".data).drop k) = false := by
  by_cases h9 : k ≤ 9
  · interval_cases k <;> decide
  · have hlen : (" HTTP/1.1".data).length ≤ k := by
      have : (" HTTP/1.1".data).length = 9 := by decide
      omega
    rw [List.drop_eq_nil_of_le hlen]
    decide

theorem occursAt_http_le (X : List Char) (i : Nat)
    (h : occursAt httpTok (X ++ " HTTP/1.1".data) i = true) : i ≤ X.length := by
  by_contra hgt
  push_neg at hgt
  obtain ⟨k, hk1, hk2⟩ : ∃ k, 1 ≤ k ∧ i = X.length + k :=
    ⟨i - X.length, by omega, by omega⟩
  subst hk2
  rw [occursAt, List.drop_append] at h
  rw [httpTok_not_occurs_in_suffix k hk1] at h
  cases h

theorem rfindSub_http (X : List Char) :
    rfindSub httpTok (X ++ " HTTP/1.1".data) = some X.length := by
  have hocc : occursAt httpTok (X ++ " HTTP/1.1".data) X.length = true := by
    rw [occursAt, List.drop_left]
    decide
  have hlen : X.length ≤ (X ++ " HTTP/1.1".data).length := by
    rw [List.length_append]
    omega
  obtain ⟨i, hi, hge⟩ := rfindSub_ge httpTok _ X.length hlen hocc
  have hle := occursAt_http_le X i (rfindSub_occurs httpTok _ i hi)
  have : i = X.length := Nat.le_antisymm hle hge
  rw [this] at hi
  exact hi

/-- Reduction of `NetMessage.add` in HTTP mode once the results of the three
    searches are known. -/
theorem add_http_spec (st : NetMessage) (input : List Char)
    (hh : st.is_http = true)
    (k : Nat) (hfind0 : findSub ['\n', '\n'] (st.request ++ stripCR input) = some k)
    (p : Nat) (hfind1 : findSub ['\n'] (st.request ++ stripCR input) = some p)
    (q2 : Nat) (hrfind : rfindSub httpTok ((st.request ++ stripCR input).take p) = some q2) :
    st.add input
      = ({ st with request := unquote (((st.request ++ stripCR input).take p).take q2) }, true) := by
  unfold NetMessage.add
  simp [hh, hfind0, hfind1, hrfind]

/-- Claim C3 (code_bug evidence): when only the HTTP listener's handle is
    readable, the accept-loop iteration obtains the socket from the PLAIN TCP
    listener (`self._tcp_server.new_socket()`, source line 513) while tagging
    the connection `is_http=true`; it does not accept from the HTTP listener
    as the claim states. -/
theorem http_listener_accept_source_bug :
    networkRunStep true false false true = RunAction.accept ServerId.tcp true ∧
    networkRunStep true false false true ≠ RunAction.accept ServerId.http true := by
  decide

/-- Claim C4 (code_bug evidence): the step-4 guard
    `new_data or message.is_listening()` of `Connection.run` tests the Python
    truthiness of the TUPLE returned by `is_listening`, which is always
    truthy; so even with no new data and the listening flag false the guard
    is true and the body executes, contradicting the claimed iff. -/
theorem listening_guard_always_true_bug :
    connDataGuard false (freshMsg false) = true ∧
    (freshMsg false).listening = false ∧
    ((freshMsg false).is_listening).1 = false := by
  decide

/-- Claim C5 (code_bug evidence): `get_result` checks `if self._result is
    None` only once and does not re-check after `condition.wait()` returns;
    under a spurious wake with no intervening `set_result` (`waitTrans = id`)
    it returns the still-unset slot `none` (Python `None`) and clears the
    request, although no result was ever posted. -/
theorem get_result_spurious_wake_bug :
    (freshMsg false).result = none ∧
    ((freshMsg false).get_result id).2 = none ∧
    ((freshMsg false).get_result id).1.result = none :=
  ⟨rfl, rfl, rfl⟩

/-- Claim C6: `set_result(result, listening, listen_until, disconnect)` sets
    all four output fields and issues exactly one notify; a subsequent
    `get_result` returns exactly the posted result, and immediately afterwards
    the request accumulator is empty and the result slot is cleared. -/
theorem set_then_get_result_roundtrip (st : NetMessage) (r : List Char) (l : Bool)
    (lu : Option DateTime) (d : Bool) (w : NetMessage → NetMessage) :
    (st.set_result r l lu d).2 = 1 ∧
    (st.set_result r l lu d).1.result = some r ∧
    (st.set_result r l lu d).1.listening = l ∧
    (st.set_result r l lu d).1.listen_since = lu ∧
    (st.set_result r l lu d).1.disconnect = d ∧
    ((st.set_result r l lu d).1.get_result w).2 = some r ∧
    ((st.set_result r l lu d).1.get_result w).1.request = [] ∧
    ((st.set_result r l lu d).1.get_result w).1.result = none :=
  ⟨rfl, rfl, rfl, rfl, rfl, rfl, rfl, rfl⟩

/-- Claim C9: a bind/listen failure of either listener propagates out of
    `Network.__init__` as the raised error; no `Network` value is produced. -/
theorem bind_failure_propagates (isLocal : Bool) (port hp : Int)
    (tco hco : BindOutcome) (e : List Char) :
    (tco = BindOutcome.fail e →
       Network.init isLocal port hp tco hco = Except.error e) ∧
    (∀ fd, tco = BindOutcome.ok fd → hp > 0 → hco = BindOutcome.fail e →
       Network.init isLocal port hp tco hco = Except.error e) := by
  constructor
  · intro h
    subst h
    simp [Network.init, TcpServer.start, TcpServer.make]
  · intro fd htco hhp hhco
    subst htco
    subst hhco
    simp [Network.init, TcpServer.start, TcpServer.make, hhp]

theorem bind_failure_propagates_witness :
    Network.init true 8888 8080 (BindOutcome.fail "bind error".data) (BindOutcome.ok 4)
      = Except.error "bind error".data ∧
    Network.init true 8888 8080 (BindOutcome.ok 3) (BindOutcome.fail "bind error".data)
      = Except.error "bind error".data :=
  ⟨(bind_failure_propagates true 8888 8080 _ _ _).1 rfl,
   (bind_failure_propagates true 8888 8080 _ _ _).2 3 rfl (by decide) rfl⟩

/-- Claim C10: `TcpServer.start` on a server that is already listening returns
    immediately with the state unchanged (socket, address, port, backlog and
    listening flag untouched), so start-after-start equals a single start. -/
theorem start_idempotent (s : TcpServer) (o1 o2 : BindOutcome) :
    (s.listening = true → s.start o2 = Except.ok s) ∧
    (∀ s1, s.start o1 = Except.ok s1 → s1.start o2 = Except.ok s1) := by
  constructor
  · intro h
    simp [TcpServer.start, h]
  · intro s1 h
    unfold TcpServer.start at h
    by_cases hl : s.listening = true
    · rw [if_pos hl] at h
      injection h with h
      subst h
      simp [TcpServer.start, hl]
    · rw [if_neg hl] at h
      cases o1 with
      | ok fd =>
          injection h with h
          subst h
          simp [TcpServer.start]
      | fail e => exact Except.noConfusion h

theorem start_idempotent_witness :
    listeningServer.start (BindOutcome.ok 7) = Except.ok listeningServer ∧
    startedServer.start (BindOutcome.fail "busy".data) = Except.ok startedServer :=
  ⟨(start_idempotent listeningServer (BindOutcome.ok 7) (BindOutcome.ok 7)).1 rfl,
   (start_idempotent (TcpServer.make 2 [] 5) (BindOutcome.ok 3)
      (BindOutcome.fail "busy".data)).2 startedServer rfl⟩

/-- Claim C2 (corrected, counterexample): in plain mode with buffer "a\nb" the
    newline sits mid-buffer; `add` reports COMPLETE but the retained request
    is the whole buffer "a\nb", not the claimed truncation "a". -/
theorem plain_midline_truncation_cex :
    ((freshMsg false).add "a\nb".data).2 = true ∧
    ((freshMsg false).add "a\nb".data).1.request = "a\nb".data ∧
    "a\nb".data ≠ "a".data := by
  decide

/-- Claim C2 (amended): in plain mode, whenever `add` finds a newline at a
    position other than the very end of the buffer, it returns COMPLETE and
    the retained request text is the ENTIRE accumulated buffer unchanged
    (the newline and the bytes after it included) — no truncation happens. -/
theorem plain_midline_no_truncation (st : NetMessage) (input : List Char) (p : Nat)
    (hhttp : st.is_http = false)
    (hfind : findSub ['\n'] (st.request ++ stripCR input) = some p)
    (hpos : p + 1 ≠ (st.request ++ stripCR input).length) :
    st.add input = ({ st with request := st.request ++ stripCR input }, true) := by
  unfold NetMessage.add
  simp [hhttp, hfind]
  intro hc
  rw [List.length_append] at hpos
  omega

theorem plain_midline_no_truncation_witness :
    (freshMsg false).add "a\nb".data
      = ({ freshMsg false with
            request := (freshMsg false).request ++ stripCR "a\nb".data }, true) :=
  plain_midline_no_truncation (freshMsg false) "a\nb".data 1 rfl (by decide) (by decide)

/-- Claim C7: feeding `r ++ "\n"` (with `r` newline-free, carriage returns
    allowed) to a fresh plain-mode framer returns COMPLETE with the stored
    request equal to `r` with every carriage return removed: the trailing
    newline is stripped and no "\r" is retained. -/
theorem add_plain_complete_spec (st : NetMessage) (input : List Char)
    (hh : st.is_http = false) (p : Nat)
    (hfind : findSub ['\n'] (st.request ++ stripCR input) = some p)
    (hpos : p + 1 = (st.request ++ stripCR input).length) :
    st.add input = ({ st with request := (st.request ++ stripCR input).take p }, true) := by
  unfold NetMessage.add
  simp [hh, hfind, hpos]

theorem plain_line_framing (r : List Char) (h : ('\n') ∉ r) :
    (freshMsg false).add (r ++ ['\n'])
      = ({ freshMsg false with request := stripCR r }, true) := by
  have hstrip : stripCR (r ++ ['\n']) = stripCR r ++ ['\n'] := by
    rw [stripCR_append]
    rfl
  have hfind : findSub ['\n'] (stripCR r ++ ['\n']) = some (stripCR r).length :=
    findSub_single_eq (stripCR r) '\n' [] (not_mem_stripCR h)
  have hf : findSub ['\n'] ((freshMsg false).request ++ stripCR (r ++ ['\n']))
      = some (stripCR r).length := by
    show findSub ['\n'] (stripCR (r ++ ['\n'])) = some (stripCR r).length
    rw [hstrip]
    exact hfind
  have hp : (stripCR r).length + 1
      = ((freshMsg false).request ++ stripCR (r ++ ['\n'])).length := by
    show (stripCR r).length + 1 = (stripCR (r ++ ['\n'])).length
    rw [hstrip]
    simp
  rw [add_plain_complete_spec (freshMsg false) (r ++ ['\n']) rfl (stripCR r).length hf hp]
  have htake : ((freshMsg false).request ++ stripCR (r ++ ['\n'])).take (stripCR r).length
      = stripCR r := by
    show (stripCR (r ++ ['\n'])).take (stripCR r).length = stripCR r
    rw [hstrip]
    exact List.take_left _ _
  rw [htake]

theorem plain_line_framing_witness :
    (freshMsg false).add ("pi\rng".data ++ ['\n'])
      = ({ freshMsg false with request := stripCR "pi\rng".data }, true) :=
  plain_line_framing "pi\rng".data (by decide)

theorem drainLoop_fst (q : List NetMessage) :
    (drainLoop q).1 = q.map (fun m => (m.set_result errShutdown false none true).1) := by
  induction q with
  | nil => rfl
  | cons m rest ih => simp [drainLoop, ih]

theorem drainLoop_snd (q : List NetMessage) :
    (drainLoop q).2 = (drainLoop q).1.map TAction.drain := by
  induction q with
  | nil => rfl
  | cons m rest ih => simp [drainLoop, ih]

theorem joinLoopRev_no_drain (cs : List Nat) :
    ∀ a ∈ joinLoopRev cs, isDrainAct a = false := by
  induction cs with
  | nil =>
      intro a ha
      cases ha
  | cons c rest ih =>
      intro a ha
      simp only [joinLoopRev, List.mem_cons] at ha
      rcases ha with rfl | rfl | ha
      · rfl
      · rfl
      · exact ih a ha

/-- Claim C8: during `Network.__del__` every message still sitting in the
    dispatch queue receives the result "ERR: shutdown" with disconnect=true,
    and in the teardown action order the whole queue drain happens before any
    connection is signalled (`stop`) or joined. -/
theorem shutdown_drain_before_join (q : List NetMessage) (conns : List Nat) :
    (∀ m2 ∈ (networkDel q conns).1,
        m2.result = some errShutdown ∧ m2.disconnect = true) ∧
    (networkDel q conns).1.length = q.length ∧
    (∀ a ∈ (networkDel q conns).2.take ((drainLoop q).2.length + 1),
        isConnAct a = false) ∧
    (∀ a ∈ (networkDel q conns).2.drop ((drainLoop q).2.length + 1),
        isDrainAct a = false) := by
  have hshape : (networkDel q conns).2
      = TAction.notifySelf ::
          ((drainLoop q).2 ++ (joinLoopRev conns.reverse ++ [TAction.joinSelf])) := rfl
  refine ⟨?_, ?_, ?_, ?_⟩
  · intro m2 hm
    have : m2 ∈ (drainLoop q).1 := hm
    rw [drainLoop_fst] at this
    obtain ⟨m, _, rfl⟩ := List.mem_map.mp this
    exact ⟨rfl, rfl⟩
  · have : (networkDel q conns).1 = (drainLoop q).1 := rfl
    rw [this, drainLoop_fst, List.length_map]
  · intro a ha
    rw [hshape, List.take_succ_cons, List.take_left] at ha
    rcases List.mem_cons.mp ha with rfl | ha2
    · rfl
    · rw [drainLoop_snd] at ha2
      obtain ⟨m, _, rfl⟩ := List.mem_map.mp ha2
      rfl
  · intro a ha
    rw [hshape, List.drop_succ_cons, List.drop_left] at ha
    rcases List.mem_append.mp ha with ha2 | ha2
    · exact joinLoopRev_no_drain _ a ha2
    · rcases List.mem_singleton.mp ha2 with rfl
      rfl

theorem shutdown_drain_before_join_witness :
    drainedMsg0.result = some errShutdown ∧ drainedMsg0.disconnect = true :=
  (shutdown_drain_before_join [freshMsg false] [1]).1 drainedMsg0 (by decide)

/-- Claim C1 (corrected, counterexample): in HTTP mode the request line
    "GET /status%20now HTTP/1.1\r\n\r\n" completes with stored request text
    "GET /status now" — the " HTTP/1.1" suffix is removed and the path is
    percent-decoded, but the method word "GET " is retained, so the stored
    text is not the claimed "/status now". -/
theorem http_method_word_retained_cex :
    ((freshMsg true).add "GET /status%20now HTTP/1.1\r\n\r\n".data).2 = true ∧
    ((freshMsg true).add "GET /status%20now HTTP/1.1\r\n\r\n".data).1.request
      = "GET /status now".data ∧
    "GET /status now".data ≠ "/status now".data := by
  decide

/-- Claim C1 (amended): for every newline-free and carriage-return-free
    `path`, feeding "GET " ++ path ++ " HTTP/1.1\r\n\r\n" to a fresh HTTP-mode
    framer completes with the stored request text equal to
    "GET " ++ the percent-decoded path: the HTTP-version suffix is stripped
    and the path percent-decoded, but the method word "GET " is retained. -/
theorem http_request_decoding_amended (path : List Char)
    (h1 : ('\n') ∉ path) (h2 : ('\r') ∉ path) :
    (freshMsg true).add ("GET ".data ++ path ++ " HTTP/1.1\r\n\r\n".data)
      = ({ freshMsg true with request := "GET ".data ++ unquote path }, true) := by
  have hpath : stripCR path = path := stripCR_of_not_mem h2
  have hstrip : stripCR (("GET ".data ++ path) ++ " HTTP/1.1\r\n\r\n".data)
      = (("GET ".data ++ path) ++ " HTTP/1.1".data) ++ ['\n', '\n'] := by
    rw [stripCR_append, stripCR_append, hpath,
        show stripCR "GET ".data = "GET ".data from by decide,
        show stripCR " HTTP/1.1\r\n\r\n".data = " HTTP/1.1".data ++ ['\n', '\n'] from by decide]
    simp [List.append_assoc]
  have hA_nonl : ('\n') ∉ ("GET ".data ++ path) ++ " HTTP/1.1".data := by
    intro hmem
    rcases List.mem_append.mp hmem with hmem2 | hmem2
    · rcases List.mem_append.mp hmem2 with hmem3 | hmem3
      · exact absurd hmem3 (by decide)
      · exact h1 hmem3
    · exact absurd hmem2 (by decide)
  have hfind1 : findSub ['\n'] ((("GET ".data ++ path) ++ " HTTP/1.1".data) ++ ['\n', '\n'])
      = some (("GET ".data ++ path) ++ " HTTP/1.1".data).length :=
    findSub_single_eq (("GET ".data ++ path) ++ " HTTP/1.1".data) '\n' ['\n'] hA_nonl
  have hocc : occursAt ['\n', '\n']
      ((("GET ".data ++ path) ++ " HTTP/1.1".data) ++ ['\n', '\n'])
      (("GET ".data ++ path) ++ " HTTP/1.1".data).length = true := by
    rw [occursAt, List.drop_left]
    decide
  have hfind0 : (findSub ['\n', '\n']
      ((("GET ".data ++ path) ++ " HTTP/1.1".data) ++ ['\n', '\n'])).isSome = true :=
    findSub_isSome_of_occurs _ _ _ hocc
  obtain ⟨k, hk⟩ := Option.isSome_iff_exists.mp hfind0
  have h0 : findSub ['\n', '\n']
      ((freshMsg true).request ++ stripCR (("GET ".data ++ path) ++ " HTTP/1.1\r\n\r\n".data))
      = some k := by
    show findSub ['\n', '\n'] (stripCR (("GET ".data ++ path) ++ " HTTP/1.1\r\n\r\n".data)) = some k
    rw [hstrip]
    exact hk
  have hf1 : findSub ['\n']
      ((freshMsg true).request ++ stripCR (("GET ".data ++ path) ++ " HTTP/1.1\r\n\r\n".data))
      = some (("GET ".data ++ path) ++ " HTTP/1.1".data).length := by
    show findSub ['\n'] (stripCR (("GET ".data ++ path) ++ " HTTP/1.1\r\n\r\n".data))
      = some (("GET ".data ++ path) ++ " HTTP/1.1".data).length
    rw [hstrip]
    exact hfind1
  have htake1 : ((freshMsg true).request
        ++ stripCR (("GET ".data ++ path) ++ " HTTP/1.1\r\n\r\n".data)).take
        (("GET ".data ++ path) ++ " HTTP/1.1".data).length
      = ("GET ".data ++ path) ++ " HTTP/1.1".data := by
    show (stripCR (("GET ".data ++ path) ++ " HTTP/1.1\r\n\r\n".data)).take
        (("GET ".data ++ path) ++ " HTTP/1.1".data).length
      = ("GET ".data ++ path) ++ " HTTP/1.1".data
    rw [hstrip]
    exact List.take_left _ _
  have hrf : rfindSub httpTok
      (((freshMsg true).request
          ++ stripCR (("GET ".data ++ path) ++ " HTTP/1.1\r\n\r\n".data)).take
        (("GET ".data ++ path) ++ " HTTP/1.1".data).length)
      = some ("GET ".data ++ path).length := by
    rw [htake1]
    exact rfindSub_http ("GET ".data ++ path)
  rw [add_http_spec (freshMsg true) (("GET ".data ++ path) ++ " HTTP/1.1\r\n\r\n".data)
        rfl k h0 (("GET ".data ++ path) ++ " HTTP/1.1".data).length hf1
        ("GET ".data ++ path).length hrf]
  rw [htake1, List.take_left]
  rfl

theorem http_request_decoding_amended_witness :
    (freshMsg true).add ("GET ".data ++ "/status%20now".data ++ " HTTP/1.1\r\n\r\n".data)
      = ({ freshMsg true with request := "GET ".data ++ unquote "/status%20now".data }, true) :=
  http_request_decoding_amended "/status%20now".data (by decide) (by decide)
